import Mathlib

/-!
Shallow embedding of src/utils/imagelist2lmdb.py: the manifest loader
(ImageListRaw), the per-item resolver (ImageListRaw.__getitem__), the record
encoder (dumps_pyarrow) and the batched LMDB writer (list2lmdb), together with
theorems settling the specification claims about them.
-/

namespace FaceLmdb

/-- The four attribute selectors accepted by the converter. -/
inductive Attr
| race
| gender
| age
| recognition
deriving DecidableEq

/-- ImageListRaw.ATTRIBUTES: attribute selector to manifest column index.
Mirrors the source dict literally, including recognition mapping to column 1. -/
def ATTRIBUTES : Attr → Nat
| Attr.race => 1
| Attr.gender => 2
| Attr.age => 3
| Attr.recognition => 1

/-- ImageListRaw.MAX_CLASS: attribute selector to maximum valid label.
The source value float("Inf") for recognition is modelled as none. -/
def maxClassTbl : Attr → Option Int
| Attr.race => some 4
| Attr.gender => some 1
| Attr.age => some 100
| Attr.recognition => none

/-- One parsed manifest row: column 0 is the sample path, `cols` holds the
integer label columns 1, 2, ... as produced by pd.read_csv / np.asarray. -/
structure Row where
  path : String
  cols : List Int
deriving DecidableEq

/-- image_names[:, c]: value of column `c` (c >= 1) of a row. -/
def col (r : Row) (c : Nat) : Int := r.cols.getD (c - 1) 0

/-- The two boolean-mask filters applied in ImageListRaw.__init__:
keep rows whose selected label is >= 0, then keep rows whose selected label
is <= max_class (always true when max_class is infinite). -/
def filteredRows (a : Attr) (rows : List Row) : List Row :=
  (rows.filter fun r => decide (0 ≤ col r (ATTRIBUTES a))).filter fun r =>
    match maxClassTbl a with
    | some m => decide (col r (ATTRIBUTES a) ≤ m)
    | none => true

/-- os.path.join for two components (posixpath semantics): an absolute second
component wins; otherwise a separator is inserted unless one is present. -/
def pathJoin (a b : String) : String :=
  if b.data.head? = some '/' then b
  else if a = "" then b
  else if a.data.getLast? = some '/' then a ++ b
  else a ++ "/" ++ b

/-- Python s[:-4]: the string with its last four characters removed. -/
def pyStripLast4 (s : String) : String := ⟨s.data.take (s.data.length - 4)⟩

/-- The mask-path derivation f-string: image_name[:-4] + "_mask.png". -/
def maskName (s : String) : String := pyStripLast4 s ++ "_mask.png"

instance {ε α : Type} [DecidableEq ε] [DecidableEq α] : DecidableEq (Except ε α) := fun a b =>
  match a, b with
  | Except.ok x, Except.ok y =>
    if h : x = y then Decidable.isTrue (by rw [h])
    else Decidable.isFalse (fun hc => h (Except.ok.inj hc))
  | Except.error x, Except.error y =>
    if h : x = y then Decidable.isTrue (by rw [h])
    else Decidable.isFalse (fun hc => h (Except.error.inj hc))
  | Except.ok _, Except.error _ => Decidable.isFalse (fun hc => Except.noConfusion hc)
  | Except.error _, Except.ok _ => Decidable.isFalse (fun hc => Except.noConfusion hc)

/-- The state ImageListRaw.__init__ leaves behind.  `masks` distinguishes the
three Python situations: attribute never assigned (none), assigned None
(some none), assigned a list (some (some l)). -/
structure Dataset where
  samples : List String
  masks : Option (Option (List String))
  targets : List Int
  classnum : Int
deriving DecidableEq

/-- np.max over a 1-d integer array: raises ValueError on an empty array. -/
def npMax : List Int → Except String Int
| [] => Except.error ("ValueError: zero-size array to reduction operation maximum")
| x :: xs => Except.ok (xs.foldl max x)

/-- ImageListRaw.__init__: filter the manifest, build sample and mask paths,
extract targets, compute classnum (np.max raises on an empty filtered set). -/
def imageListRaw (a : Attr) (source maskSource : Option String) (rows : List Row) :
    Except String Dataset :=
  let filtered := filteredRows a rows
  let samples :=
    match source with
    | some src => filtered.map fun r => pathJoin src r.path
    | none => filtered.map fun r => r.path
  let masks :=
    match source with
    | some _ =>
      match maskSource with
      | some ms => some (some (filtered.map fun r => maskName (pathJoin ms r.path)))
      | none => some none
    | none => none
  let targets := filtered.map fun r => col r (ATTRIBUTES a)
  match npMax targets with
  | Except.error e => Except.error e
  | Except.ok m =>
    Except.ok ⟨samples, masks, targets, if a = Attr.age then m else m + 1⟩

/-- The file system seen by the resolver: path to file contents, none when the
file is missing or unreadable. -/
def FS : Type := String → Option String

/-- ImageListRaw.__getitem__: read the image bytes; if self.masks is a list,
read the mask bytes and return the triple; if self.masks is None the local
variable mask was never assigned (UnboundLocalError); if self.masks was never
set (source is None) attribute access fails (AttributeError). -/
def getitem (fs : FS) (d : Dataset) (index : Nat) :
    Except String (String × Int × Option String) :=
  match d.samples[index]? with
  | none => Except.error ("IndexError: samples")
  | some sp =>
    match fs sp with
    | none => Except.error ("SampleReadError: " ++ sp)
    | some img =>
      match d.masks with
      | none => Except.error ("AttributeError: ImageListRaw has no attribute masks")
      | some none =>
        Except.error ("UnboundLocalError: local variable mask referenced before assignment")
      | some (some ms) =>
        match ms[index]? with
        | none => Except.error ("IndexError: masks")
        | some mp =>
          match fs mp with
          | none => Except.error ("SampleReadError: " ++ mp)
          | some mb =>
            match d.targets[index]? with
            | none => Except.error ("IndexError: targets")
            | some tgt => Except.ok (img, tgt, some mb)

/-- Wire forms that can be stored as LMDB values: the two record tuple shapes
and the three metadata payloads. -/
inductive Value
| rec2 (img : String) (label : Int)
| rec3 (img : String) (label : Int) (mask : String)
| keysVal (ks : List String)
| lenVal (n : Nat)
| classnumVal (c : Int)
deriving DecidableEq

/-- dumps_pyarrow: lz4framed.compress(pa.serialize(obj).to_buffer()), modelled
as the identity injection on the wire-form datatype. -/
def dumps_pyarrow (obj : Value) : Value := obj

/-- Decimal digit characters, as produced by Python "{}".format. -/
def digitChar10 : Nat → Char
| 0 => '0'
| 1 => '1'
| 2 => '2'
| 3 => '3'
| 4 => '4'
| 5 => '5'
| 6 => '6'
| 7 => '7'
| 8 => '8'
| _ => '9'

/-- Fuel-indexed decimal character list of a natural number (big-endian). -/
def natKeyAux : Nat → Nat → List Char
| 0, _ => []
| fuel + 1, n =>
  if n < 10 then [digitChar10 n]
  else natKeyAux fuel (n / 10) ++ [digitChar10 (n % 10)]

/-- "{}".format(idx).encode("ascii"): the ASCII-decimal key of an index. -/
def natKey (n : Nat) : String := ⟨natKeyAux (n + 1) n⟩

/-- Decimal decoding of a character list; inverse of natKey used to prove
injectivity of the key assignment. -/
def decodeDec (l : List Char) : Nat :=
  l.foldl (fun a c => 10 * a + (c.toNat - 48)) 0

/-- The encoded value staged for manifest index `i`: the three-element tuple
when a mask came back, the two-element tuple otherwise (the `.error` branch is
never staged; the default value is irrelevant). -/
def stagedValue (fs : FS) (d : Dataset) (i : Nat) : Value :=
  match getitem fs d i with
  | Except.ok (img, label, some m) => Value.rec3 img label m
  | Except.ok (img, label, none) => Value.rec2 img label
  | Except.error _ => Value.rec2 ("") 0

/-- The main loop of list2lmdb over the remaining indices.  State: the list of
already-committed transactions (each a list of puts, in commit order) and the
puts staged in the currently open transaction.  A resolver failure aborts the
loop, discarding the open transaction; after staging index idx the open
transaction is committed whenever idx % write_frequency == 0. -/
def runLoop (fs : FS) (d : Dataset) (wf : Nat) :
    List Nat → List (List (String × Value)) → List (String × Value) →
    List (List (String × Value)) × List (String × Value) × Option String
| [], txns, pending => (txns, pending, none)
| idx :: rest, txns, pending =>
  match getitem fs d idx with
  | Except.error e => (txns, pending, some e)
  | Except.ok (img, label, mask) =>
    let v := match mask with
      | some m => dumps_pyarrow (Value.rec3 img label m)
      | none => dumps_pyarrow (Value.rec2 img label)
    let pending2 := pending ++ [(natKey idx, v)]
    if idx % wf == 0 then runLoop fs d wf rest (txns ++ [pending2]) []
    else runLoop fs d wf rest txns pending2

/-- The final metadata transaction: __keys__, __len__ (= len(keys)) and
__classnum__, exactly as staged by list2lmdb after the loop. -/
def metaTxn (n : Nat) (classnum : Int) : List (String × Value) :=
  [("__keys__", dumps_pyarrow (Value.keysVal ((List.range n).map natKey))),
   ("__len__", dumps_pyarrow (Value.lenVal ((List.range n).map natKey).length)),
   ("__classnum__", dumps_pyarrow (Value.classnumVal classnum))]

/-- Observable outcome of one list2lmdb run: whether lmdb.open was reached,
the committed transactions in commit order, and the propagated exception if
the run aborted. -/
structure RunOut where
  opened : Bool
  txns : List (List (String × Value))
  err : Option String
deriving DecidableEq

/-- list2lmdb: build the dataset (before the store is opened), open the store,
run the write loop over indices 0..N-1, commit the trailing transaction, then
write the metadata transaction.  The Python loop variable idx is undefined
when the dataset is empty (NameError at range(idx + 1)); that branch is
unreachable because an empty dataset already fails in imageListRaw. -/
def list2lmdb (fs : FS) (a : Attr) (source maskSource : Option String)
    (rows : List Row) (write_frequency : Nat) : RunOut :=
  match imageListRaw a source maskSource rows with
  | Except.error e => ⟨false, [], some e⟩
  | Except.ok d =>
    let n := d.samples.length
    match runLoop fs d write_frequency (List.range n) [] [] with
    | (txns, _, some e) => ⟨true, txns, some e⟩
    | (txns, pending, none) =>
      match n with
      | 0 => ⟨true, txns ++ [pending], some ("NameError: name idx is not defined")⟩
      | lastIdx + 1 =>
        ⟨true, (txns ++ [pending]) ++ [metaTxn (lastIdx + 1) d.classnum], none⟩

/-- The committed key-value content of the store after a run: the puts of all
committed transactions, in commit order. -/
def storeData (o : RunOut) : List (String × Value) := o.txns.flatten

/-- The label range test the filter enforces for attribute `a`. -/
def labelOkB (a : Attr) (x : Int) : Bool :=
  decide (0 ≤ x) &&
    (match maxClassTbl a with
     | some m => decide (x ≤ m)
     | none => true)

/-- Whether a stored pair carries an in-range label (metadata pairs trivially
do). -/
def valueLabelOk (a : Attr) : String × Value → Prop
| (_, Value.rec2 _ label) => labelOkB a label = true
| (_, Value.rec3 _ label _) => labelOkB a label = true
| _ => True

/-- Producer-pool model: the completion stream of a worker schedule `sch`
(the order in which per-index results become available). -/
def poolOutput {α : Type} (f : Nat → α) (sch : List Nat) : List (Nat × α) :=
  sch.map fun i => (i, f i)

/-- Consumer-side reassembly: the completion stream is reordered back to
manifest index order 0..n-1. -/
def reassemble {α : Type} (n : Nat) (completions : List (Nat × α)) : List (Option α) :=
  (List.range n).map fun i => (completions.find? fun p => p.1 == i).map Prod.snd

/-- What the writer consumes from the loader under worker schedule `sch`:
per-index resolver results, reassembled in manifest order. -/
def loaderSeq (fs : FS) (d : Dataset) (sch : List Nat) :
    List (Option (Except String (String × Int × Option String))) :=
  reassemble d.samples.length (poolOutput (getitem fs d) sch)

/-- Concrete fixture: a manifest row whose gender label is valid. -/
def exRow : Row := ⟨"a.jpg", [0, 0, 30, 7]⟩

/-- Concrete fixture: a file system on which every path is readable and the
contents of a file are its path. -/
def allFS : FS := fun p => some p

/-- Concrete fixture: five valid manifest rows. -/
def rows5 : List Row :=
  [⟨"f0.jpg", [0, 0, 10, 0]⟩, ⟨"f1.jpg", [1, 1, 20, 1]⟩, ⟨"f2.jpg", [2, 0, 30, 2]⟩,
   ⟨"f3.jpg", [3, 1, 40, 3]⟩, ⟨"f4.jpg", [4, 0, 50, 4]⟩]

/-- Concrete fixture: two valid manifest rows. -/
def rows2w : List Row := [⟨"f0.jpg", [0, 0, 10, 0]⟩, ⟨"f1.jpg", [1, 1, 20, 1]⟩]

/-- Concrete fixture: ten valid manifest rows. -/
def rows10 : List Row := rows5 ++
  [⟨"f5.jpg", [0, 1, 10, 5]⟩, ⟨"f6.jpg", [1, 0, 20, 6]⟩, ⟨"f7.jpg", [2, 1, 30, 7]⟩,
   ⟨"f8.jpg", [3, 0, 40, 8]⟩, ⟨"f9.jpg", [4, 1, 50, 9]⟩]

/-- Concrete fixture: a file system where exactly the image of record index 2
is unreadable. -/
def exFS10 : FS := fun p => if p = "root/f2.jpg" then none else some p

theorem digitChar10_toNat {d : Nat} (h : d < 10) : (digitChar10 d).toNat = 48 + d := by
  interval_cases d <;> decide

theorem decodeDec_append_one (xs : List Char) (c : Char) :
    decodeDec (xs ++ [c]) = 10 * decodeDec xs + (c.toNat - 48) := by
  simp [decodeDec, List.foldl_append]

theorem natKeyAux_decode : ∀ (fuel n : Nat), n < 10 ^ fuel →
    decodeDec (natKeyAux fuel n) = n := by
  intro fuel
  induction fuel with
  | zero =>
    intro n hn
    interval_cases n
    decide
  | succ f ih =>
    intro n hn
    by_cases h : n < 10
    · have hd := digitChar10_toNat h
      simp only [natKeyAux, if_pos h, decodeDec, List.foldl, hd]
      omega
    · have hdiv : n / 10 < 10 ^ f := by
        have hmul : n < 10 ^ f * 10 := by
          rw [← pow_succ]
          exact hn
        exact (Nat.div_lt_iff_lt_mul (by norm_num)).mpr hmul
      have hmod := digitChar10_toNat (Nat.mod_lt n (show 0 < 10 by norm_num))
      have hdm := Nat.div_add_mod n 10
      simp only [natKeyAux, if_neg h, decodeDec_append_one, ih (n / 10) hdiv, hmod]
      omega

theorem lt_ten_pow_succ (n : Nat) : n < 10 ^ (n + 1) :=
  calc n < 10 ^ n := Nat.lt_pow_self (by norm_num) n
  _ ≤ 10 ^ (n + 1) := Nat.pow_le_pow_right (by norm_num) (Nat.le_succ n)

theorem decodeDec_natKey (n : Nat) : decodeDec (natKey n).data = n :=
  natKeyAux_decode (n + 1) n (lt_ten_pow_succ n)

theorem natKey_injective : Function.Injective natKey := by
  intro a b h
  have h2 : decodeDec (natKey a).data = decodeDec (natKey b).data := by rw [h]
  rwa [decodeDec_natKey, decodeDec_natKey] at h2

theorem mem_natKeyAux_digit : ∀ (fuel n : Nat) (c : Char), c ∈ natKeyAux fuel n →
    ∃ d, c = digitChar10 d := by
  intro fuel
  induction fuel with
  | zero =>
    intro n c hc
    simp [natKeyAux] at hc
  | succ f ih =>
    intro n c hc
    by_cases h : n < 10
    · simp only [natKeyAux, if_pos h, List.mem_singleton] at hc
      exact ⟨n, hc⟩
    · simp only [natKeyAux, if_neg h, List.mem_append, List.mem_singleton] at hc
      rcases hc with hc | hc
      · exact ih _ _ hc
      · exact ⟨n % 10, hc⟩

theorem digitChar10_ne_underscore (d : Nat) : digitChar10 d ≠ '_' := by
  unfold digitChar10
  split <;> decide

theorem natKey_no_underscore (n : Nat) : '_' ∉ (natKey n).data := by
  intro h
  obtain ⟨d, hd⟩ := mem_natKeyAux_digit (n + 1) n _ h
  exact digitChar10_ne_underscore d hd.symm

theorem natKey_ne_of_underscore {s : String} (n : Nat) (hs : '_' ∈ s.data) :
    natKey n ≠ s := by
  intro h
  apply natKey_no_underscore n
  rw [congrArg String.data h]
  exact hs

theorem runLoop_cons_err {fs : FS} {d : Dataset} {wf idx : Nat} {e : String}
    (rest : List Nat) (txns : List (List (String × Value))) (pending : List (String × Value))
    (hg : getitem fs d idx = Except.error e) :
    runLoop fs d wf (idx :: rest) txns pending = (txns, pending, some e) := by
  simp [runLoop, hg]

theorem runLoop_cons_ok {fs : FS} {d : Dataset} {wf idx : Nat} {img : String} {label : Int}
    {mask : Option String} (rest : List Nat) (txns : List (List (String × Value)))
    (pending : List (String × Value)) (hg : getitem fs d idx = Except.ok (img, label, mask)) :
    runLoop fs d wf (idx :: rest) txns pending =
      if idx % wf == 0 then
        runLoop fs d wf rest (txns ++ [pending ++ [(natKey idx, stagedValue fs d idx)]]) []
      else runLoop fs d wf rest txns (pending ++ [(natKey idx, stagedValue fs d idx)]) := by
  cases mask with
  | some m =>
    have hstage : stagedValue fs d idx = dumps_pyarrow (Value.rec3 img label m) := by
      unfold stagedValue
      rw [hg]
      rfl
    rw [hstage]
    simp only [runLoop, hg]
  | none =>
    have hstage : stagedValue fs d idx = dumps_pyarrow (Value.rec2 img label) := by
      unfold stagedValue
      rw [hg]
      rfl
    rw [hstage]
    simp only [runLoop, hg]

theorem runLoop_ok_flatten (fs : FS) (d : Dataset) (wf : Nat) :
    ∀ (is : List Nat) (txns : List (List (String × Value))) (pending : List (String × Value)),
    (runLoop fs d wf is txns pending).2.2 = none →
    (runLoop fs d wf is txns pending).1.flatten ++ (runLoop fs d wf is txns pending).2.1 =
      txns.flatten ++ pending ++ is.map (fun i => (natKey i, stagedValue fs d i)) := by
  intro is
  induction is with
  | nil =>
    intro txns pending _
    simp [runLoop]
  | cons idx rest ih =>
    intro txns pending h
    cases hg : getitem fs d idx with
    | error e =>
      rw [runLoop_cons_err rest txns pending hg] at h
      simp at h
    | ok trip =>
      obtain ⟨img, label, mask⟩ := trip
      rw [runLoop_cons_ok rest txns pending hg] at h ⊢
      by_cases hmod : (idx % wf == 0) = true
      · rw [if_pos hmod] at h ⊢
        rw [ih _ _ h]
        simp [List.flatten_append, List.append_assoc]
      · rw [if_neg hmod] at h ⊢
        rw [ih _ _ h]
        simp [List.append_assoc]

theorem runLoop_mem (fs : FS) (d : Dataset) (wf : Nat) :
    ∀ (is : List Nat) (txns : List (List (String × Value))) (pending : List (String × Value))
      (kv : String × Value),
    (kv ∈ (runLoop fs d wf is txns pending).1.flatten ∨
      kv ∈ (runLoop fs d wf is txns pending).2.1) →
    kv ∈ txns.flatten ∨ kv ∈ pending ∨
      ∃ i, i ∈ is ∧ kv = (natKey i, stagedValue fs d i) := by
  intro is
  induction is with
  | nil =>
    intro txns pending kv h
    simp only [runLoop] at h
    tauto
  | cons idx rest ih =>
    intro txns pending kv h
    cases hg : getitem fs d idx with
    | error e =>
      rw [runLoop_cons_err rest txns pending hg] at h
      tauto
    | ok trip =>
      obtain ⟨img, label, mask⟩ := trip
      rw [runLoop_cons_ok rest txns pending hg] at h
      by_cases hmod : (idx % wf == 0) = true
      · rw [if_pos hmod] at h
        rcases ih _ _ _ h with h1 | h1 | ⟨i, hi, hkv⟩
        · simp only [List.flatten_append, List.flatten_cons, List.flatten_nil,
            List.append_nil, List.mem_append, List.mem_singleton] at h1
          rcases h1 with h1 | h1 | h1
          · exact Or.inl h1
          · exact Or.inr (Or.inl h1)
          · exact Or.inr (Or.inr ⟨idx, List.mem_cons_self idx rest, h1⟩)
        · simp at h1
        · exact Or.inr (Or.inr ⟨i, List.mem_cons_of_mem idx hi, hkv⟩)
      · rw [if_neg hmod] at h
        rcases ih _ _ _ h with h1 | h1 | ⟨i, hi, hkv⟩
        · exact Or.inl h1
        · simp only [List.mem_append, List.mem_singleton] at h1
          rcases h1 with h2 | h2
          · exact Or.inr (Or.inl h2)
          · exact Or.inr (Or.inr ⟨idx, List.mem_cons_self idx rest, h2⟩)
        · exact Or.inr (Or.inr ⟨i, List.mem_cons_of_mem idx hi, hkv⟩)

theorem runLoop_txn_mem (fs : FS) (d : Dataset) (wf : Nat) :
    ∀ (is : List Nat) (txns : List (List (String × Value))) (pending : List (String × Value))
      (t : List (String × Value)),
    t ∈ (runLoop fs d wf is txns pending).1 →
    t ∈ txns ∨ ∃ i, i ∈ is ∧ i % wf = 0 ∧
      t.getLast? = some (natKey i, stagedValue fs d i) := by
  intro is
  induction is with
  | nil =>
    intro txns pending t h
    simp only [runLoop] at h
    exact Or.inl h
  | cons idx rest ih =>
    intro txns pending t h
    cases hg : getitem fs d idx with
    | error e =>
      rw [runLoop_cons_err rest txns pending hg] at h
      exact Or.inl h
    | ok trip =>
      obtain ⟨img, label, mask⟩ := trip
      rw [runLoop_cons_ok rest txns pending hg] at h
      by_cases hmod : (idx % wf == 0) = true
      · rw [if_pos hmod] at h
        rcases ih _ _ _ h with h1 | ⟨i, hi, hiw, hlast⟩
        · rcases List.mem_append.mp h1 with h2 | h2
          · exact Or.inl h2
          · refine Or.inr ⟨idx, List.mem_cons_self idx rest, by simpa using hmod, ?_⟩
            rw [List.mem_singleton.mp h2]
            exact List.getLast?_concat _
        · exact Or.inr ⟨i, List.mem_cons_of_mem idx hi, hiw, hlast⟩
      · rw [if_neg hmod] at h
        rcases ih _ _ _ h with h1 | ⟨i, hi, hiw, hlast⟩
        · exact Or.inl h1
        · exact Or.inr ⟨i, List.mem_cons_of_mem idx hi, hiw, hlast⟩

theorem npMax_ok_ne_nil {l : List Int} {M : Int} (h : npMax l = Except.ok M) : l ≠ [] := by
  intro hl
  subst hl
  simp [npMax] at h

theorem foldl_max_mem : ∀ (xs : List Int) (a : Int), xs.foldl max a = a ∨ xs.foldl max a ∈ xs
| [], _ => Or.inl rfl
| y :: ys, a => by
  rw [List.foldl_cons]
  rcases foldl_max_mem ys (max a y) with h1 | h1
  · rcases max_choice a y with h2 | h2
    · exact Or.inl (h1.trans h2)
    · refine Or.inr ?_
      rw [h1, h2]
      exact List.mem_cons_self y ys
  · exact Or.inr (List.mem_cons_of_mem y h1)

theorem le_foldl_max : ∀ (xs : List Int) (a : Int), a ≤ xs.foldl max a
| [], _ => le_refl _
| y :: ys, a => by
  rw [List.foldl_cons]
  exact le_trans (le_max_left a y) (le_foldl_max ys (max a y))

theorem mem_le_foldl_max : ∀ (xs : List Int) (a y : Int), y ∈ xs → y ≤ xs.foldl max a
| [], _, _, h => absurd h (List.not_mem_nil _)
| z :: zs, a, y, h => by
  rw [List.foldl_cons]
  rcases List.mem_cons.mp h with h1 | h1
  · subst h1
    exact le_trans (le_max_right a y) (le_foldl_max zs (max a y))
  · exact mem_le_foldl_max zs (max a z) y h1

theorem npMax_spec {l : List Int} {M : Int} (h : npMax l = Except.ok M) :
    M ∈ l ∧ ∀ x ∈ l, x ≤ M := by
  cases l with
  | nil => simp [npMax] at h
  | cons x xs =>
    simp only [npMax, Except.ok.injEq] at h
    subst h
    refine ⟨?_, ?_⟩
    · rcases foldl_max_mem xs x with h1 | h1
      · rw [h1]
        exact List.mem_cons_self x xs
      · exact List.mem_cons_of_mem x h1
    · intro y hy
      rcases List.mem_cons.mp hy with h1 | h1
      · subst h1
        exact le_foldl_max xs y
      · exact mem_le_foldl_max xs x y h1

theorem imageListRaw_ok {a : Attr} {source maskSource : Option String} {rows : List Row}
    {d : Dataset} (h : imageListRaw a source maskSource rows = Except.ok d) :
    d.samples.length = (filteredRows a rows).length ∧
    d.targets = (filteredRows a rows).map (fun r => col r (ATTRIBUTES a)) ∧
    ∃ M, npMax ((filteredRows a rows).map (fun r => col r (ATTRIBUTES a))) = Except.ok M ∧
      d.classnum = if a = Attr.age then M else M + 1 := by
  simp only [imageListRaw] at h
  cases hm : npMax ((filteredRows a rows).map fun r => col r (ATTRIBUTES a)) with
  | error e =>
    rw [hm] at h
    exact absurd h (by simp)
  | ok M =>
    rw [hm] at h
    injection h with hd
    subst hd
    refine ⟨?_, rfl, M, rfl, rfl⟩
    cases source <;> simp

theorem imageListRaw_ok_len_pos {a : Attr} {source maskSource : Option String}
    {rows : List Row} {d : Dataset} (h : imageListRaw a source maskSource rows = Except.ok d) :
    1 ≤ d.samples.length := by
  obtain ⟨hlen, _, M, hM, _⟩ := imageListRaw_ok h
  have hne := npMax_ok_ne_nil hM
  rw [hlen]
  cases hf : filteredRows a rows with
  | nil =>
    rw [hf] at hne
    simp at hne
  | cons r rs => simp

theorem mem_filteredRows {a : Attr} {rows : List Row} {r : Row}
    (h : r ∈ filteredRows a rows) : labelOkB a (col r (ATTRIBUTES a)) = true := by
  unfold filteredRows at h
  rw [List.mem_filter] at h
  obtain ⟨h1, h2⟩ := h
  rw [List.mem_filter] at h1
  obtain ⟨_, h0⟩ := h1
  unfold labelOkB
  cases hM : maxClassTbl a with
  | none => simp_all
  | some m => simp_all

theorem list2lmdb_shape (fs : FS) (a : Attr) (source maskSource : Option String)
    (rows : List Row) (wf : Nat) :
    (∃ e, imageListRaw a source maskSource rows = Except.error e ∧
      list2lmdb fs a source maskSource rows wf = ⟨false, [], some e⟩) ∨
    (∃ d txns pending e, imageListRaw a source maskSource rows = Except.ok d ∧
      runLoop fs d wf (List.range d.samples.length) [] [] = (txns, pending, some e) ∧
      list2lmdb fs a source maskSource rows wf = ⟨true, txns, some e⟩) ∨
    (∃ d txns pending, imageListRaw a source maskSource rows = Except.ok d ∧
      1 ≤ d.samples.length ∧
      runLoop fs d wf (List.range d.samples.length) [] [] = (txns, pending, none) ∧
      list2lmdb fs a source maskSource rows wf =
        ⟨true, (txns ++ [pending]) ++ [metaTxn d.samples.length d.classnum], none⟩) := by
  cases hinit : imageListRaw a source maskSource rows with
  | error e =>
    left
    exact ⟨e, rfl, by simp [list2lmdb, hinit]⟩
  | ok d =>
    rcases hrun : runLoop fs d wf (List.range d.samples.length) [] [] with ⟨txns, pending, merr⟩
    cases merr with
    | some e =>
      right
      left
      exact ⟨d, txns, pending, e, rfl, hrun, by simp [list2lmdb, hinit, hrun]⟩
    | none =>
      right
      right
      have hpos : 1 ≤ d.samples.length := imageListRaw_ok_len_pos hinit
      obtain ⟨k, hk⟩ : ∃ k, d.samples.length = k + 1 := ⟨d.samples.length - 1, by omega⟩
      refine ⟨d, txns, pending, rfl, hpos, hrun, ?_⟩
      have hrun2 := hrun
      rw [hk] at hrun2
      simp only [list2lmdb, hinit, hk, hrun2]

/-- Claim C3 counterexample: the loader maps the recognition attribute to
manifest column 1 (the race column), not column 4: on a row whose column 1
holds 2 and column 4 holds 7, the recognition targets are [2], not [7].
Moreover the age attribute is not unbounded above: a row with age label 101
is filtered out (max-valid-label for age is the fixed constant 100). -/
theorem c3_counterexample :
    imageListRaw Attr.recognition none none [⟨"a.jpg", [2, 0, 30, 7]⟩]
      = Except.ok ⟨["a.jpg"], none, [2], 3⟩ ∧
    ATTRIBUTES Attr.recognition ≠ 4 ∧
    filteredRows Attr.age [⟨"b.jpg", [0, 0, 101, 0]⟩] = [] :=
  ⟨rfl, by decide, rfl⟩

/-- Claim C3 (amended): the loader reads the label of every surviving row from
the selected attribute's column in the table race=1, gender=2, age=3,
recognition=1, and the maximum-valid-label table is race=4, gender=1, age=100,
recognition=unbounded. -/
theorem c3_amended (a : Attr) (source maskSource : Option String) (rows : List Row)
    (d : Dataset) (h : imageListRaw a source maskSource rows = Except.ok d) :
    d.targets = (filteredRows a rows).map (fun r => col r (ATTRIBUTES a)) ∧
    ATTRIBUTES Attr.race = 1 ∧ ATTRIBUTES Attr.gender = 2 ∧ ATTRIBUTES Attr.age = 3 ∧
    ATTRIBUTES Attr.recognition = 1 ∧
    maxClassTbl Attr.race = some 4 ∧ maxClassTbl Attr.gender = some 1 ∧
    maxClassTbl Attr.age = some 100 ∧ maxClassTbl Attr.recognition = none :=
  ⟨(imageListRaw_ok h).2.1, rfl, rfl, rfl, rfl, rfl, rfl, rfl, rfl⟩

/-- Claim C3 amended witness at a concrete manifest. -/
theorem c3_amended_witness :
    (⟨["root/a.jpg"], some none, [0], 1⟩ : Dataset).targets
      = (filteredRows Attr.gender [⟨"a.jpg", [0, 0, 30, 7]⟩]).map
          (fun r => col r (ATTRIBUTES Attr.gender)) ∧
    ATTRIBUTES Attr.race = 1 ∧ ATTRIBUTES Attr.gender = 2 ∧ ATTRIBUTES Attr.age = 3 ∧
    ATTRIBUTES Attr.recognition = 1 ∧
    maxClassTbl Attr.race = some 4 ∧ maxClassTbl Attr.gender = some 1 ∧
    maxClassTbl Attr.age = some 100 ∧ maxClassTbl Attr.recognition = none :=
  c3_amended Attr.gender (some "root") none [⟨"a.jpg", [0, 0, 30, 7]⟩]
    ⟨["root/a.jpg"], some none, [0], 1⟩ rfl

/-- Claim C5 (code bug): when no mask root is configured the resolver raises
UnboundLocalError (the local variable mask is never assigned when self.masks
is None) instead of returning the (imageBytes, label) pair, so the run aborts
at the first record and the two-element tuple is never stored; list2lmdb's
two-element put branch is unreachable. -/
theorem c5_maskless_run_fails :
    imageListRaw Attr.gender (some "root") none [exRow]
      = Except.ok ⟨["root/a.jpg"], some none, [0], 1⟩ ∧
    getitem allFS ⟨["root/a.jpg"], some none, [0], 1⟩ 0
      = Except.error ("UnboundLocalError: local variable mask referenced before assignment") ∧
    list2lmdb allFS Attr.gender (some "root") none [exRow] 5000
      = ⟨true, [], some ("UnboundLocalError: local variable mask referenced before assignment")⟩ :=
  ⟨rfl, rfl, rfl⟩

/-- Claim C9: when an image source S and a mask root M are both configured,
every surviving row's mask path is M joined with the row's sample path, with
the last four characters of the joined path removed and the suffix _mask.png
appended; and when no mask root is given no mask path list is ever built. -/
theorem c9_mask_paths (a : Attr) (S M : String) (rows : List Row) :
    (∀ d, imageListRaw a (some S) (some M) rows = Except.ok d →
      d.masks = some (some ((filteredRows a rows).map fun r =>
        String.mk ((pathJoin M r.path).data.take ((pathJoin M r.path).data.length - 4))
          ++ "_mask.png"))) ∧
    (∀ source d, imageListRaw a source none rows = Except.ok d →
      d.masks = some none ∨ d.masks = none) := by
  constructor
  · intro d h
    simp only [imageListRaw] at h
    cases hm : npMax ((filteredRows a rows).map fun r => col r (ATTRIBUTES a)) with
    | error e =>
      rw [hm] at h
      exact absurd h (by simp)
    | ok mx =>
      rw [hm] at h
      injection h with hd
      subst hd
      rfl
  · intro source d h
    simp only [imageListRaw] at h
    cases hm : npMax ((filteredRows a rows).map fun r => col r (ATTRIBUTES a)) with
    | error e =>
      rw [hm] at h
      exact absurd h (by simp)
    | ok mx =>
      rw [hm] at h
      injection h with hd
      subst hd
      cases source with
      | some src => exact Or.inl rfl
      | none => exact Or.inr rfl

/-- Claim C9 witness: mask derivation on a concrete manifest row. -/
theorem c9_witness :
    (⟨["root/a.jpg"], some (some (["mroot/a_mask.png"])), [0], 1⟩ : Dataset).masks
      = some (some ((filteredRows Attr.gender [exRow]).map fun r =>
          String.mk ((pathJoin ("mroot") r.path).data.take
              ((pathJoin ("mroot") r.path).data.length - 4))
            ++ "_mask.png")) :=
  (c9_mask_paths Attr.gender ("root") ("mroot") [exRow]).1
    ⟨["root/a.jpg"], some (some (["mroot/a_mask.png"])), [0], 1⟩ rfl

/-- Claim C10: when filtering removes every manifest row, dataset construction
fails (np.max of an empty label array) before the store is opened, so nothing
is ever written: the run reports an error, opened is false and the committed
store content is empty. -/
theorem c10_empty_filter_fails (fs : FS) (a : Attr) (source maskSource : Option String)
    (rows : List Row) (wf : Nat) (h : filteredRows a rows = []) :
    (∃ e, imageListRaw a source maskSource rows = Except.error e) ∧
    (list2lmdb fs a source maskSource rows wf).opened = false ∧
    storeData (list2lmdb fs a source maskSource rows wf) = [] ∧
    (list2lmdb fs a source maskSource rows wf).err ≠ none := by
  have hinit : imageListRaw a source maskSource rows =
      Except.error ("ValueError: zero-size array to reduction operation maximum") := by
    simp only [imageListRaw, h]
    rfl
  refine ⟨⟨_, hinit⟩, ?_, ?_, ?_⟩ <;> simp [list2lmdb, hinit, storeData]

/-- Claim C10 witness: a single-row manifest whose gender label 2 is out of
range, so the filter removes everything. -/
theorem c10_witness :
    (∃ e, imageListRaw Attr.gender (some "root") none [⟨"a.jpg", [0, 2, 30, 0]⟩]
      = Except.error e) ∧
    (list2lmdb allFS Attr.gender (some "root") none [⟨"a.jpg", [0, 2, 30, 0]⟩] 5000).opened
      = false ∧
    storeData (list2lmdb allFS Attr.gender (some "root") none
      [⟨"a.jpg", [0, 2, 30, 0]⟩] 5000) = [] ∧
    (list2lmdb allFS Attr.gender (some "root") none
      [⟨"a.jpg", [0, 2, 30, 0]⟩] 5000).err ≠ none :=
  c10_empty_filter_fails allFS Attr.gender (some "root") none
    [⟨"a.jpg", [0, 2, 30, 0]⟩] 5000 rfl

theorem getitem_ok_label_mem {fs : FS} {d : Dataset} {i : Nat} {img : String} {label : Int}
    {mask : Option String} (h : getitem fs d i = Except.ok (img, label, mask)) :
    label ∈ d.targets := by
  unfold getitem at h
  cases hsp : d.samples[i]? with
  | none => simp [hsp] at h
  | some sp =>
    simp only [hsp] at h
    cases hfi : fs sp with
    | none => simp [hfi] at h
    | some img0 =>
      simp only [hfi] at h
      cases hms : d.masks with
      | none => simp [hms] at h
      | some mo =>
        cases mo with
        | none => simp [hms] at h
        | some ms =>
          simp only [hms] at h
          cases hmp : ms[i]? with
          | none => simp [hmp] at h
          | some mp =>
            simp only [hmp] at h
            cases hfm : fs mp with
            | none => simp [hfm] at h
            | some mb =>
              simp only [hfm] at h
              cases ht : d.targets[i]? with
              | none => simp [ht] at h
              | some tgt =>
                simp only [ht, Except.ok.injEq, Prod.mk.injEq] at h
                obtain ⟨ha, hb1, hb2⟩ := h
                rw [← hb1]
                exact List.getElem?_mem ht

/-- Claim C2: every entry whose label is negative or above the attribute's
maximum is removed while the manifest is loaded (imageListRaw takes no file
system at all, so filtering happens before any read), and every record put
into the store carries an in-range label. -/
theorem c2_label_range (fs : FS) (a : Attr) (source maskSource : Option String)
    (rows : List Row) (wf : Nat) :
    (∀ d, imageListRaw a source maskSource rows = Except.ok d →
      ∀ t ∈ d.targets, labelOkB a t = true) ∧
    (∀ kv, kv ∈ storeData (list2lmdb fs a source maskSource rows wf) →
      valueLabelOk a kv) := by
  have hpart1 : ∀ d, imageListRaw a source maskSource rows = Except.ok d →
      ∀ t ∈ d.targets, labelOkB a t = true := by
    intro d h t ht
    obtain ⟨_, htgt, _⟩ := imageListRaw_ok h
    rw [htgt] at ht
    obtain ⟨r, hr, hcol⟩ := List.mem_map.mp ht
    rw [← hcol]
    exact mem_filteredRows hr
  refine ⟨hpart1, ?_⟩
  have hstaged : ∀ d, imageListRaw a source maskSource rows = Except.ok d →
      ∀ i k, valueLabelOk a (k, stagedValue fs d i) := by
    intro d hd i k
    cases hg : getitem fs d i with
    | error e =>
      unfold stagedValue
      rw [hg]
      show labelOkB a 0 = true
      cases a <;> rfl
    | ok trip =>
      obtain ⟨img, label, mask⟩ := trip
      have hlab : labelOkB a label = true :=
        hpart1 d hd label (getitem_ok_label_mem hg)
      unfold stagedValue
      rw [hg]
      cases mask with
      | some m => exact hlab
      | none => exact hlab
  intro kv hkv
  rcases list2lmdb_shape fs a source maskSource rows wf with
    ⟨e, hinit, hout⟩ | ⟨d, txns, pending, e, hinit, hrun, hout⟩ |
    ⟨d, txns, pending, hinit, hpos, hrun, hout⟩
  · rw [hout] at hkv
    simp [storeData] at hkv
  · rw [hout] at hkv
    have h2 : kv ∈ (runLoop fs d wf (List.range d.samples.length) [] []).1.flatten ∨
        kv ∈ (runLoop fs d wf (List.range d.samples.length) [] []).2.1 := by
      rw [hrun]
      exact Or.inl hkv
    rcases runLoop_mem fs d wf _ _ _ _ h2 with h1 | h1 | ⟨i, _, hkv3⟩
    · simp at h1
    · simp at h1
    · rw [hkv3]
      exact hstaged d hinit i (natKey i)
  · rw [hout] at hkv
    simp only [storeData, List.flatten_append, List.flatten_cons, List.flatten_nil,
      List.append_nil, List.mem_append] at hkv
    rcases hkv with (hkv | hkv) | hkv
    · have h2 : kv ∈ (runLoop fs d wf (List.range d.samples.length) [] []).1.flatten ∨
          kv ∈ (runLoop fs d wf (List.range d.samples.length) [] []).2.1 := by
        rw [hrun]
        exact Or.inl hkv
      rcases runLoop_mem fs d wf _ _ _ _ h2 with h1 | h1 | ⟨i, _, hkv3⟩
      · simp at h1
      · simp at h1
      · rw [hkv3]
        exact hstaged d hinit i (natKey i)
    · have h2 : kv ∈ (runLoop fs d wf (List.range d.samples.length) [] []).1.flatten ∨
          kv ∈ (runLoop fs d wf (List.range d.samples.length) [] []).2.1 := by
        rw [hrun]
        exact Or.inr hkv
      rcases runLoop_mem fs d wf _ _ _ _ h2 with h1 | h1 | ⟨i, _, hkv3⟩
      · simp at h1
      · simp at h1
      · rw [hkv3]
        exact hstaged d hinit i (natKey i)
    · simp only [metaTxn, dumps_pyarrow, List.mem_cons, List.mem_singleton,
        List.not_mem_nil, or_false] at hkv
      rcases hkv with hkv | hkv | hkv <;> rw [hkv] <;> trivial

/-- Claim C2 witness: the record committed for the only row of a successful
masked run carries the in-range label 0. -/
theorem c2_witness :
    valueLabelOk Attr.gender (natKey 0,
      Value.rec3 ("root/a.jpg") 0 ("mroot/a_mask.png")) :=
  (c2_label_range allFS Attr.gender (some "root") (some "mroot") [exRow] 5000).2
    (natKey 0, Value.rec3 ("root/a.jpg") 0 ("mroot/a_mask.png")) (by decide)

/-- Claim C4: after a successful run, the value stored under __classnum__ is
M + 1 for race, gender and recognition, and M for age, where M is the maximum
of the labels that survive filtering. -/
theorem c4_classnum (fs : FS) (a : Attr) (source maskSource : Option String)
    (rows : List Row) (wf : Nat)
    (hok : (list2lmdb fs a source maskSource rows wf).err = none) :
    ∃ M, M ∈ (filteredRows a rows).map (fun r => col r (ATTRIBUTES a)) ∧
      (∀ x ∈ (filteredRows a rows).map (fun r => col r (ATTRIBUTES a)), x ≤ M) ∧
      ("__classnum__", Value.classnumVal (if a = Attr.age then M else M + 1))
        ∈ storeData (list2lmdb fs a source maskSource rows wf) := by
  rcases list2lmdb_shape fs a source maskSource rows wf with
    ⟨e, hinit, hout⟩ | ⟨d, txns, pending, e, hinit, hrun, hout⟩ |
    ⟨d, txns, pending, hinit, hpos, hrun, hout⟩
  · rw [hout] at hok
    exact absurd hok (by simp)
  · rw [hout] at hok
    exact absurd hok (by simp)
  · obtain ⟨hlen, htgt, M, hM, hcn⟩ := imageListRaw_ok hinit
    obtain ⟨hMmem, hMle⟩ := npMax_spec hM
    refine ⟨M, hMmem, hMle, ?_⟩
    rw [hout]
    simp only [storeData, List.flatten_append, List.flatten_cons, List.flatten_nil,
      List.append_nil, List.mem_append]
    right
    rw [← hcn]
    simp [metaTxn, dumps_pyarrow]

/-- Claim C4 witness: gender run over one row with label 0 stores classnum 1. -/
theorem c4_witness :
    ∃ M, M ∈ (filteredRows Attr.gender [exRow]).map
        (fun r => col r (ATTRIBUTES Attr.gender)) ∧
      (∀ x ∈ (filteredRows Attr.gender [exRow]).map
        (fun r => col r (ATTRIBUTES Attr.gender)), x ≤ M) ∧
      ("__classnum__", Value.classnumVal (if Attr.gender = Attr.age then M else M + 1))
        ∈ storeData (list2lmdb allFS Attr.gender (some "root") (some "mroot")
            [exRow] 5000) :=
  c4_classnum allFS Attr.gender (some "root") (some "mroot") [exRow] 5000 (by decide)

/-- Claim C6: the three metadata keys are committed only by the final
transaction of a successful run, after every data transaction (none of which
touches a metadata key); a run that aborts with any exception (dataset
construction or a resolver failure at any record, for example record index 2
of 10) never commits any metadata key, so a reader distinguishes a complete
database from an aborted one. -/
theorem c6_metadata_last (fs : FS) (a : Attr) (source maskSource : Option String)
    (rows : List Row) (wf : Nat) :
    (∀ e, (list2lmdb fs a source maskSource rows wf).err = some e →
      ∀ v : Value,
        ("__keys__", v) ∉ storeData (list2lmdb fs a source maskSource rows wf) ∧
        ("__len__", v) ∉ storeData (list2lmdb fs a source maskSource rows wf) ∧
        ("__classnum__", v) ∉ storeData (list2lmdb fs a source maskSource rows wf)) ∧
    ((list2lmdb fs a source maskSource rows wf).err = none →
      ∃ d dataTxns, imageListRaw a source maskSource rows = Except.ok d ∧
        (list2lmdb fs a source maskSource rows wf).txns
          = dataTxns ++ [metaTxn d.samples.length d.classnum] ∧
        ∀ t ∈ dataTxns, ∀ kv : String × Value, kv ∈ t →
          kv.1 ≠ "__keys__" ∧ kv.1 ≠ "__len__" ∧ kv.1 ≠ "__classnum__") := by
  rcases list2lmdb_shape fs a source maskSource rows wf with
    ⟨e2, hinit, hout⟩ | ⟨d, txns, pending, e2, hinit, hrun, hout⟩ |
    ⟨d, txns, pending, hinit, hpos, hrun, hout⟩
  · constructor
    · intro e he v
      rw [hout]
      simp [storeData]
    · intro hok
      rw [hout] at hok
      simp at hok
  · have hnometa : ∀ s : String, '_' ∈ s.data → ∀ w : Value,
        ((s, w) ∈ txns.flatten ∨ (s, w) ∈ pending) → False := by
      intro s hs w hmem
      have h2 : (s, w) ∈ (runLoop fs d wf (List.range d.samples.length) [] []).1.flatten ∨
          (s, w) ∈ (runLoop fs d wf (List.range d.samples.length) [] []).2.1 := by
        rw [hrun]
        exact hmem
      rcases runLoop_mem fs d wf _ _ _ _ h2 with h1 | h1 | ⟨i, _, hkv⟩
      · simp at h1
      · simp at h1
      · exact natKey_ne_of_underscore i hs (congrArg Prod.fst hkv).symm
    constructor
    · intro e he v
      rw [hout]
      exact ⟨fun hm => hnometa ("__keys__") (by decide) v (Or.inl hm),
        fun hm => hnometa ("__len__") (by decide) v (Or.inl hm),
        fun hm => hnometa ("__classnum__") (by decide) v (Or.inl hm)⟩
    · intro hok
      rw [hout] at hok
      simp at hok
  · have hnum : ∀ kv : String × Value, kv ∈ txns.flatten ∨ kv ∈ pending →
        ∃ i, kv.1 = natKey i := by
      intro kv hmem
      have h2 : kv ∈ (runLoop fs d wf (List.range d.samples.length) [] []).1.flatten ∨
          kv ∈ (runLoop fs d wf (List.range d.samples.length) [] []).2.1 := by
        rw [hrun]
        exact hmem
      rcases runLoop_mem fs d wf _ _ _ _ h2 with h1 | h1 | ⟨i, _, hkv⟩
      · simp at h1
      · simp at h1
      · exact ⟨i, congrArg Prod.fst hkv⟩
    constructor
    · intro e he v
      rw [hout] at he
      simp at he
    · intro _
      refine ⟨d, txns ++ [pending], hinit, by rw [hout], ?_⟩
      intro t ht kv hkv
      have hmem : kv ∈ txns.flatten ∨ kv ∈ pending := by
        rcases List.mem_append.mp ht with h1 | h1
        · exact Or.inl (List.mem_flatten.mpr ⟨t, h1, hkv⟩)
        · rw [List.mem_singleton.mp h1] at hkv
          exact Or.inr hkv
      obtain ⟨i, hi⟩ := hnum kv hmem
      refine ⟨?_, ?_, ?_⟩ <;>
        · rw [hi]
          exact fun hc => natKey_ne_of_underscore i (by decide) hc

/-- Claim C6 witness: a resolver failure at record index 2 of 10 aborts the
run and the committed store contains none of the metadata keys. -/
theorem c6_witness :
    ("__keys__", Value.lenVal 10) ∉ storeData (list2lmdb exFS10 Attr.gender
      (some "root") (some "mroot") rows10 5000) ∧
    ("__len__", Value.lenVal 10) ∉ storeData (list2lmdb exFS10 Attr.gender
      (some "root") (some "mroot") rows10 5000) ∧
    ("__classnum__", Value.lenVal 10) ∉ storeData (list2lmdb exFS10 Attr.gender
      (some "root") (some "mroot") rows10 5000) :=
  (c6_metadata_last exFS10 Attr.gender (some "root") (some "mroot") rows10 5000).1
    ("SampleReadError: root/f2.jpg") (by decide) (Value.lenVal 10)

/-- Claim C1: for every manifest whose filtered entry count N is at least 1,
a successful run commits exactly the data keys 0..N-1 (ASCII decimal, in
order, no gaps or duplicates) followed by the three metadata keys; __len__
holds N and __keys__ holds the ordered key list. -/
theorem c1_emitted_keys (fs : FS) (a : Attr) (source maskSource : Option String)
    (rows : List Row) (wf : Nat)
    (hN : 1 ≤ (filteredRows a rows).length)
    (hok : (list2lmdb fs a source maskSource rows wf).err = none) :
    (storeData (list2lmdb fs a source maskSource rows wf)).map Prod.fst
      = (List.range (filteredRows a rows).length).map natKey
        ++ ["__keys__", "__len__", "__classnum__"] ∧
    ((List.range (filteredRows a rows).length).map natKey).Nodup ∧
    ("__len__", Value.lenVal (filteredRows a rows).length)
      ∈ storeData (list2lmdb fs a source maskSource rows wf) ∧
    ("__keys__", Value.keysVal ((List.range (filteredRows a rows).length).map natKey))
      ∈ storeData (list2lmdb fs a source maskSource rows wf) := by
  rcases list2lmdb_shape fs a source maskSource rows wf with
    ⟨e, hinit, hout⟩ | ⟨d, txns, pending, e, hinit, hrun, hout⟩ |
    ⟨d, txns, pending, hinit, hpos, hrun, hout⟩
  · rw [hout] at hok
    simp at hok
  · rw [hout] at hok
    simp at hok
  · obtain ⟨hlen, htgt, M, hM, hcn⟩ := imageListRaw_ok hinit
    have hjoin2 : txns.flatten ++ pending =
        (List.range d.samples.length).map (fun i => (natKey i, stagedValue fs d i)) := by
      have h0 := runLoop_ok_flatten fs d wf (List.range d.samples.length) [] []
        (by rw [hrun])
      rw [hrun] at h0
      simpa using h0
    have hsd : storeData (list2lmdb fs a source maskSource rows wf)
        = (List.range (filteredRows a rows).length).map
            (fun i => (natKey i, stagedValue fs d i))
          ++ metaTxn (filteredRows a rows).length d.classnum := by
      rw [hout]
      show ((txns ++ [pending]) ++ [metaTxn d.samples.length d.classnum]).flatten = _
      rw [List.flatten_append, List.flatten_append, List.flatten_cons, List.flatten_cons,
        List.flatten_nil, List.append_nil, List.append_nil, hjoin2, hlen]
    refine ⟨?_, ?_, ?_, ?_⟩
    · rw [hsd, List.map_append, List.map_map]
      rfl
    · exact (List.nodup_range _).map natKey_injective
    · rw [hsd]
      refine List.mem_append_right _ ?_
      have : ((List.range (filteredRows a rows).length).map natKey).length
          = (filteredRows a rows).length := by
        rw [List.length_map, List.length_range]
      rw [metaTxn, this]
      simp [dumps_pyarrow]
    · rw [hsd]
      refine List.mem_append_right _ ?_
      rw [metaTxn]
      simp [dumps_pyarrow]

/-- Claim C1 witness: a successful two-row gender run emits keys 0 and 1 plus
the metadata keys, with __len__ = 2. -/
theorem c1_witness :
    (1 ≤ (filteredRows Attr.gender rows2w).length ∧
      (list2lmdb allFS Attr.gender (some "root") (some "mroot") rows2w 5000).err = none) ∧
    ((storeData (list2lmdb allFS Attr.gender (some "root") (some "mroot") rows2w 5000)).map
        Prod.fst
      = (List.range (filteredRows Attr.gender rows2w).length).map natKey
        ++ ["__keys__", "__len__", "__classnum__"] ∧
    ((List.range (filteredRows Attr.gender rows2w).length).map natKey).Nodup ∧
    ("__len__", Value.lenVal (filteredRows Attr.gender rows2w).length)
      ∈ storeData (list2lmdb allFS Attr.gender (some "root") (some "mroot") rows2w 5000) ∧
    ("__keys__", Value.keysVal
        ((List.range (filteredRows Attr.gender rows2w).length).map natKey))
      ∈ storeData (list2lmdb allFS Attr.gender (some "root") (some "mroot") rows2w 5000)) :=
  ⟨⟨by decide, by decide⟩,
    c1_emitted_keys allFS Attr.gender (some "root") (some "mroot") rows2w 5000
      (by decide) (by decide)⟩

/-- Claim C7: with write-frequency w >= 1, a successful run's committed
transactions are data transactions that each end right after staging a record
whose index is a multiple of w, then the final flush transaction, then the
metadata transaction; the concatenated data transactions are exactly records
0..N-1 in order, so no record is lost or duplicated across commit
boundaries. -/
theorem c7_commit_batching (fs : FS) (a : Attr) (source maskSource : Option String)
    (rows : List Row) (wf : Nat) (hw : 1 ≤ wf)
    (hok : (list2lmdb fs a source maskSource rows wf).err = none) :
    ∃ d txns pending,
      imageListRaw a source maskSource rows = Except.ok d ∧
      (list2lmdb fs a source maskSource rows wf).txns
        = (txns ++ [pending]) ++ [metaTxn d.samples.length d.classnum] ∧
      (txns ++ [pending]).flatten
        = (List.range d.samples.length).map (fun i => (natKey i, stagedValue fs d i)) ∧
      (∀ t ∈ txns, ∃ i, i < d.samples.length ∧ i % wf = 0 ∧
        t.getLast? = some (natKey i, stagedValue fs d i)) := by
  rcases list2lmdb_shape fs a source maskSource rows wf with
    ⟨e, hinit, hout⟩ | ⟨d, txns, pending, e, hinit, hrun, hout⟩ |
    ⟨d, txns, pending, hinit, hpos, hrun, hout⟩
  · rw [hout] at hok
    simp at hok
  · rw [hout] at hok
    simp at hok
  · have hjoin2 : txns.flatten ++ pending =
        (List.range d.samples.length).map (fun i => (natKey i, stagedValue fs d i)) := by
      have h0 := runLoop_ok_flatten fs d wf (List.range d.samples.length) [] []
        (by rw [hrun])
      rw [hrun] at h0
      simpa using h0
    refine ⟨d, txns, pending, hinit, by rw [hout], ?_, ?_⟩
    · rw [List.flatten_append, List.flatten_cons, List.flatten_nil, List.append_nil]
      exact hjoin2
    · intro t ht
      have ht2 : t ∈ (runLoop fs d wf (List.range d.samples.length) [] []).1 := by
        rw [hrun]
        exact ht
      rcases runLoop_txn_mem fs d wf _ _ _ _ ht2 with h1 | ⟨i, hi, hiw, hlast⟩
      · simp at h1
      · exact ⟨i, List.mem_range.mp hi, hiw, hlast⟩

/-- Claim C7 witness: write-frequency 2 over 5 records commits transactions
holding records [0], [1,2], [3,4], then the empty flush transaction, then the
metadata transaction. -/
theorem c7_witness :
    (∃ d txns pending,
      imageListRaw Attr.gender (some "root") (some "mroot") rows5 = Except.ok d ∧
      (list2lmdb allFS Attr.gender (some "root") (some "mroot") rows5 2).txns
        = (txns ++ [pending]) ++ [metaTxn d.samples.length d.classnum] ∧
      (txns ++ [pending]).flatten
        = (List.range d.samples.length).map
            (fun i => (natKey i, stagedValue allFS d i)) ∧
      (∀ t ∈ txns, ∃ i, i < d.samples.length ∧ i % 2 = 0 ∧
        t.getLast? = some (natKey i, stagedValue allFS d i))) ∧
    ((list2lmdb allFS Attr.gender (some "root") (some "mroot") rows5 2).txns.map
        (fun t => t.map Prod.fst))
      = [["0"], ["1", "2"], ["3", "4"], [], ["__keys__", "__len__", "__classnum__"]] :=
  ⟨c7_commit_batching allFS Attr.gender (some "root") (some "mroot") rows5 2
      (by decide) (by decide),
    by decide⟩

theorem find?_poolOutput {α : Type} (f : Nat → α) :
    ∀ (sch : List Nat) (i : Nat), i ∈ sch →
      (poolOutput f sch).find? (fun p => p.1 == i) = some (i, f i) := by
  intro sch
  induction sch with
  | nil =>
    intro i hi
    simp at hi
  | cons j rest ih =>
    intro i hi
    by_cases hj : j = i
    · subst hj
      simp only [poolOutput, List.map_cons]
      rw [List.find?_cons_of_pos _ (by simp)]
    · have hir : i ∈ rest := by
        rcases List.mem_cons.mp hi with h1 | h1
        · exact absurd h1.symm hj
        · exact h1
      simp only [poolOutput, List.map_cons]
      rw [List.find?_cons_of_neg _ (by simp [hj])]
      exact ih i hir

/-- Claim C8: however the producer pool's completions are ordered (any
permutation of the index range, standing for any worker count), the
reassembled sequence the writer consumes is the manifest-ordered sequence of
resolver results, so two runs differing only in worker schedule feed the
writer identically and produce identical key-value mappings. -/
theorem c8_order_independent (fs : FS) (d : Dataset) (sch1 sch2 : List Nat)
    (h1 : sch1.Perm (List.range d.samples.length))
    (h2 : sch2.Perm (List.range d.samples.length)) :
    loaderSeq fs d sch1 = loaderSeq fs d sch2 ∧
    loaderSeq fs d sch1
      = (List.range d.samples.length).map (fun i => some (getitem fs d i)) := by
  have key : ∀ sch : List Nat, sch.Perm (List.range d.samples.length) →
      loaderSeq fs d sch
        = (List.range d.samples.length).map (fun i => some (getitem fs d i)) := by
    intro sch hp
    unfold loaderSeq reassemble
    apply List.map_congr_left
    intro i hi
    rw [find?_poolOutput (getitem fs d) sch i (hp.mem_iff.mpr hi)]
    rfl
  exact ⟨(key sch1 h1).trans (key sch2 h2).symm, key sch1 h1⟩

/-- Claim C8 witness: two concrete completion schedules of a three-sample
dataset yield the same reassembled sequence. -/
theorem c8_witness :
    loaderSeq allFS ⟨["x0", "x1", "x2"], some none, [0, 1, 2], 3⟩ [2, 0, 1]
      = loaderSeq allFS ⟨["x0", "x1", "x2"], some none, [0, 1, 2], 3⟩ [0, 1, 2] ∧
    loaderSeq allFS ⟨["x0", "x1", "x2"], some none, [0, 1, 2], 3⟩ [2, 0, 1]
      = (List.range (⟨["x0", "x1", "x2"], some none, [0, 1, 2], 3⟩
          : Dataset).samples.length).map
          (fun i => some (getitem allFS ⟨["x0", "x1", "x2"], some none, [0, 1, 2], 3⟩ i)) :=
  c8_order_independent allFS ⟨["x0", "x1", "x2"], some none, [0, 1, 2], 3⟩
    [2, 0, 1] [0, 1, 2] (by decide) (by decide)

end FaceLmdb
